import Mathlib

/-!
# Shallow embedding of the chatbox service (`service/service.go`)

The Go program keeps a registry `streams : map[string]*Client` where each
`Client` holds a buffered channel of capacity 10 (the mailbox), a
`LastSeen` timestamp and a `rate.Limiter` created as `rate.NewLimiter(1, 5)`
(refill 1 token/second, burst 5).  Four operations act on the registry:
`Join`, `SendMessage`, `Leave`, `GetMessage`, plus a background cleanup
loop that every minute evicts clients idle for more than 5 minutes.

Modelling choices, all read off the source:
* Time is a rational number of seconds.
* The registry is an association list `List (String × Client)`; Go map
  lookup/insert/delete become `lookup` / cons / `List.filter`.
* A channel is a FIFO `List String` plus a `closed` flag.  A channel
  receive takes the head; a `select` send with a `default:` branch
  enqueues when `length < 10`, falls to `default` (drop) when full, and
  panics when the channel is closed (Go: a send on a closed channel
  proceeds by panicking, also inside `select`).  `trySend` embeds the
  body of the fan-out goroutine, lines 111–118 of `service.go`.
* `rate.Limiter.Allow` is `limiterAllow`: lazily refill
  `min burst (tokens + elapsed·rate)` and consume one token when at least
  one is available; on failure nothing is committed (as in
  `x/time/rate.reserveN` with `ok = false`).  A fresh limiter behaves as
  a full bucket on its first use (its zero `last` time makes the first
  refill saturate at `burst`), so a client joins with `tokens = burst`.
* `SendMessage`'s goroutine fan-out is linearised to the moment the
  registry is read under `RLock`: at that moment no registered client is
  closed (`Leave` deletes before closing, the reaper closes and deletes
  under the same exclusive lock), so the sequential model delivers with
  `deliverTo`, which drops on a full or closed mailbox.  The panic that
  the real goroutine can hit when the close happens between spawn and
  run is kept visible in `trySend`.
* `GetMessage`'s `select` wait is embedded by `selectReceive`, a function
  of the mailbox state at the moment the wait resolves plus a flag
  telling whether the 10-second timer has fired.  In a sequential run
  nothing can arrive during the wait, so `GetMessage` resolves the wait
  against the current state with the timer allowed to fire.
-/

namespace Chatbox

/-- The error kinds of `errcom.NewCustomError` calls in `service.go`,
one constructor per `ERR_*` code. -/
inductive ChatError
  | missingUserID      -- ERR_MISSING_USER_ID
  | alreadyJoined      -- ERR_ALREADY_JOINED
  | missingField       -- ERR_MISSING_FIELD
  | messageTooLong     -- ERR_MESSAGE_TOO_LONG
  | senderNotFound     -- ERR_SENDER_NOT_FOUND
  | rateLimited        -- ERR_RATE_LIMIT
  | noReceivers        -- ERR_NO_RECEIVERS
  | userNotFound       -- ERR_USER_NOT_FOUND
  | userDisconnected   -- ERR_USER_DISCONNECTED
  | noMessages         -- ERR_NO_MESSAGES
  deriving Repr, DecidableEq

/-- The stable string code each error kind carries (`errcom.CustomError.Code`). -/
def ChatError.code : ChatError → String
  | .missingUserID => "ERR_MISSING_USER_ID"
  | .alreadyJoined => "ERR_ALREADY_JOINED"
  | .missingField => "ERR_MISSING_FIELD"
  | .messageTooLong => "ERR_MESSAGE_TOO_LONG"
  | .senderNotFound => "ERR_SENDER_NOT_FOUND"
  | .rateLimited => "ERR_RATE_LIMIT"
  | .noReceivers => "ERR_NO_RECEIVERS"
  | .userNotFound => "ERR_USER_NOT_FOUND"
  | .userDisconnected => "ERR_USER_DISCONNECTED"
  | .noMessages => "ERR_NO_MESSAGES"

/-- State of one `rate.Limiter` created by `rate.NewLimiter(1, 5)`:
current token count and the time of the last committed refill. -/
structure Limiter where
  tokens : ℚ
  last : ℚ
  deriving Repr, DecidableEq

/-- Mailbox capacity: `make(chan string, 10)` in `Join`. -/
def mailboxCapacity : ℕ := 10

/-- Token-bucket burst: the `5` of `rate.NewLimiter(1, 5)`. -/
def limiterBurst : ℚ := 5

/-- Token-bucket refill rate in tokens/second: the `1` of `rate.NewLimiter(1, 5)`. -/
def limiterRate : ℚ := 1

/-- Message length cap in bytes: `len(req.Message) > 500` in `SendMessage`. -/
def maxMessageBytes : ℕ := 500

/-- Idle threshold of the cleanup loop: `5 * time.Minute`, in seconds. -/
def idleThreshold : ℚ := 300

/-- `rate.Limiter.Allow()`: refill lazily to `min burst (tokens + elapsed·rate)`,
then consume one token if at least one is available.  On failure the limiter
state is left untouched (`x/time/rate` commits `last`/`tokens` only when the
reservation succeeds).  The `max 0` mirrors `advance`'s clamp of a `last`
lying in the future. -/
def limiterAllow (l : Limiter) (now : ℚ) : Bool × Limiter :=
  let refilled := min limiterBurst (l.tokens + limiterRate * max 0 (now - l.last))
  if 1 ≤ refilled then (true, ⟨refilled - 1, now⟩) else (false, l)

/-- The `Client` struct: id, mailbox channel (buffer plus closed flag),
last-seen time, rate limiter. -/
structure Client where
  id : String
  ch : List String
  closed : Bool
  lastSeen : ℚ
  rateLimiter : Limiter
  deriving Repr, DecidableEq

/-- The registry `streams : map[string]*Client`, as an association list. -/
abbrev ChatState := List (String × Client)

/-- Go map lookup `s.streams[id]`. -/
def lookup (s : ChatState) (id : String) : Option Client :=
  match s with
  | [] => none
  | (k, c) :: rest => if k = id then some c else lookup rest id

/-- Replacing the client stored under `id` (Go mutates the `*Client` in
place; here the entry is rewritten). -/
def update (s : ChatState) (id : String) (c : Client) : ChatState :=
  s.map fun kc => if kc.1 = id then (kc.1, c) else kc

/-- Result of the fan-out goroutine's
`select { case c.Ch <- message: ... default: ... }` (lines 111–118):
a send on a closed channel proceeds by panicking, even under `select`;
otherwise the send case is ready exactly when the buffer has room, and
`default:` drops the message when it is full. -/
inductive TrySendResult
  | sent (c : Client)
  | dropped
  | panicked
  deriving Repr, DecidableEq

/-- The body of the per-recipient delivery goroutine. -/
def trySend (c : Client) (m : String) : TrySendResult :=
  if c.closed then .panicked
  else if c.ch.length < mailboxCapacity then .sent { c with ch := c.ch ++ [m] }
  else .dropped

/-- Delivery as seen by the sequential model: enqueue when there is room,
otherwise leave the recipient unchanged.  (The `panicked` outcome of
`trySend` cannot occur at the linearisation point, where every registered
client is still open.) -/
def deliverTo (c : Client) (m : String) : Client :=
  match trySend c m with
  | .sent c' => c'
  | _ => c

/-- The fan-out loop of `SendMessage`: every registered client other than
the sender gets a delivery attempt. -/
def fanout (s : ChatState) (sender : String) (m : String) : ChatState :=
  s.map fun kc => if kc.1 = sender then kc else (kc.1, deliverTo kc.2 m)

/-- `sentCount`: the number of registered clients other than the sender
(incremented once per loop iteration, regardless of delivery outcome). -/
def countOthers (s : ChatState) (sender : String) : ℕ :=
  ((s.map Prod.fst).filter (fun k => k ≠ sender)).length

structure JoinResponse where
  success : Bool
  message : String
  deriving Repr, DecidableEq

structure SendMessageResponse where
  success : Bool
  message : String
  deriving Repr, DecidableEq

structure LeaveResponse where
  success : Bool
  message : String
  deriving Repr, DecidableEq

structure MessageResponse where
  message : String
  deriving Repr, DecidableEq

/-- `Join`: reject an empty id, reject a present id, otherwise insert a
fresh client with an empty capacity-10 mailbox, `LastSeen = now` and a
fresh limiter (full bucket, see module comment). -/
def Join (s : ChatState) (now : ℚ) (id : String) :
    ChatState × Except ChatError JoinResponse :=
  if id = "" then (s, .error .missingUserID)
  else
    match lookup s id with
    | some _ => (s, .error .alreadyJoined)
    | none =>
        ((id, ⟨id, [], false, now, ⟨limiterBurst, now⟩⟩) :: s,
         .ok ⟨true, "User joined successfully"⟩)

/-- `Leave`: reject an empty id, reject an absent id, otherwise delete the
entry (the subsequent `close(client.Ch)` acts on a client no longer in
the registry). -/
def Leave (s : ChatState) (_now : ℚ) (id : String) :
    ChatState × Except ChatError LeaveResponse :=
  if id = "" then (s, .error .missingUserID)
  else
    match lookup s id with
    | none => (s, .error .userNotFound)
    | some _ =>
        (s.filter (fun kc => kc.1 ≠ id), .ok ⟨true, "User disconnected successfully"⟩)

/-- The part of `SendMessage` from the sender lookup on (lines 94–130):
look up the sender, consume a rate-limiter token, fan the formatted
message out to every other client, and fail with `ERR_NO_RECEIVERS` when
there was no other client (`sentCount == 0`) — the consumed token is not
returned. -/
def sendCore (s : ChatState) (now : ℚ) (frm msg : String) :
    ChatState × Except ChatError SendMessageResponse :=
  match lookup s frm with
  | none => (s, .error .senderNotFound)
  | some sender =>
      let ar := limiterAllow sender.rateLimiter now
      if ar.1 then
        let message := frm ++ ": " ++ msg
        let s1 := update s frm { sender with rateLimiter := ar.2 }
        let s2 := fanout s1 frm message
        if countOthers s frm = 0 then (s2, .error .noReceivers)
        else (s2, .ok ⟨true, "Message broadcasted to clients"⟩)
      else (s, .error .rateLimited)

/-- `SendMessage`: field validation (`req.From == "" || req.Message == ""`,
then `len(req.Message) > 500` — Go `len` counts bytes), then `sendCore`. -/
def SendMessage (s : ChatState) (now : ℚ) (frm msg : String) :
    ChatState × Except ChatError SendMessageResponse :=
  if frm = "" ∨ msg = "" then (s, .error .missingField)
  else if maxMessageBytes < msg.utf8ByteSize then (s, .error .messageTooLong)
  else sendCore s now frm msg

/-- The `select` of `GetMessage` (lines 170–178), as a function of the
mailbox state at the moment the wait resolves and of whether the
10-second `time.After` timer has fired: a buffered message is received
first (`ok = true` even on a closed channel that still holds messages);
an empty closed channel yields `ok = false`, hence
`ERR_USER_DISCONNECTED`; the timer case yields `ERR_NO_MESSAGES`; and
with an empty open channel and no timer yet, the select keeps waiting
(`none`). -/
def selectReceive (ch : List String) (closed : Bool) (timedOut : Bool) :
    Option (Except ChatError MessageResponse) :=
  match ch with
  | m :: _ => some (.ok ⟨m⟩)
  | [] =>
      if closed then some (.error .userDisconnected)
      else if timedOut then some (.error .noMessages)
      else none

/-- `GetMessage`: reject an empty id, reject an absent id, refresh
`LastSeen` to `now`, then resolve the mailbox wait.  Sequentially nothing
arrives and nothing closes during the wait, so the wait is resolved
against the current mailbox with the timer allowed to fire
(`timedOut = true`); a delivered message is consumed from the head of
the queue. -/
def GetMessage (s : ChatState) (now : ℚ) (id : String) :
    ChatState × Except ChatError MessageResponse :=
  if id = "" then (s, .error .missingUserID)
  else
    match lookup s id with
    | none => (s, .error .userNotFound)
    | some c =>
        match c.ch with
        | m :: rest => (update s id { c with lastSeen := now, ch := rest }, .ok ⟨m⟩)
        | [] =>
            (update s id { c with lastSeen := now },
             if c.closed then .error .userDisconnected else .error .noMessages)

/-- One tick of the cleanup loop (`startCleanupLoop`): under the exclusive
lock, every client whose `LastSeen` lies more than 5 minutes in the past
is closed and deleted. -/
def reapTick (s : ChatState) (now : ℚ) : ChatState :=
  s.filter fun kc => ¬ idleThreshold < now - kc.2.lastSeen

/-- The results of a sequence of `SendMessage(frm, msg)` calls issued at the
given times, each against the state left by the previous call. -/
def sendResults (frm msg : String) (s : ChatState) :
    List ℚ → List (Except ChatError SendMessageResponse)
  | [] => []
  | t :: ts =>
      (SendMessage s t frm msg).2 :: sendResults frm msg (SendMessage s t frm msg).1 ts

/-- Events for reasoning about the reaper: a `GetMessage` poll by a client,
or one tick of the cleanup loop. -/
inductive ChatEvent
  | get (i : String)
  | tick
  deriving Repr, DecidableEq

/-- Run a list of timestamped events against the registry. -/
def runEvents (s : ChatState) : List (ℚ × ChatEvent) → ChatState
  | [] => s
  | (t, ChatEvent.get i) :: rest => runEvents (GetMessage s t i).1 rest
  | (t, ChatEvent.tick) :: rest => runEvents (reapTick s t) rest

/-! ## Registry lemmas -/

theorem lookup_update_self {s : ChatState} {i : String} {c0 : Client} (c : Client)
    (h : lookup s i = some c0) : lookup (update s i c) i = some c := by
  induction s with
  | nil => simp [lookup] at h
  | cons kc rest ih =>
      simp only [update, List.map_cons]
      by_cases hk : kc.1 = i
      · rw [if_pos hk]
        simp only [lookup]
        rw [if_pos hk]
      · rw [if_neg hk]
        simp only [lookup] at h ⊢
        rw [if_neg hk] at h ⊢
        exact ih h

theorem lookup_update_ne {s : ChatState} {i k : String} (c : Client)
    (h : k ≠ i) : lookup (update s i c) k = lookup s k := by
  induction s with
  | nil => rfl
  | cons kc rest ih =>
      simp only [update, List.map_cons]
      by_cases hk : kc.1 = i
      · have hnk : ¬ kc.1 = k := fun hh => h (hh.symm.trans hk)
        rw [if_pos hk]
        simp only [lookup]
        rw [if_neg hnk, if_neg hnk]
        exact ih
      · rw [if_neg hk]
        simp only [lookup]
        by_cases hk2 : kc.1 = k
        · rw [if_pos hk2, if_pos hk2]
        · rw [if_neg hk2, if_neg hk2]
          exact ih

theorem keys_update (s : ChatState) (i : String) (c : Client) :
    (update s i c).map Prod.fst = s.map Prod.fst := by
  induction s with
  | nil => rfl
  | cons kc rest ih =>
      simp only [update, List.map_cons] at ih ⊢
      by_cases hk : kc.1 = i
      · rw [if_pos hk]
        simp [ih]
      · rw [if_neg hk]
        simp [ih]

theorem lookup_fanout_self (s : ChatState) (f m : String) :
    lookup (fanout s f m) f = lookup s f := by
  induction s with
  | nil => rfl
  | cons kc rest ih =>
      simp only [fanout, List.map_cons] at ih ⊢
      by_cases hk : kc.1 = f
      · rw [if_pos hk]
        simp only [lookup]
        rw [if_pos hk, if_pos hk]
      · rw [if_neg hk]
        simp only [lookup]
        rw [if_neg hk, if_neg hk]
        exact ih

theorem lookup_fanout_ne {s : ChatState} {f k : String} (m : String) (h : k ≠ f) :
    lookup (fanout s f m) k = (lookup s k).map (fun c => deliverTo c m) := by
  induction s with
  | nil => rfl
  | cons kc rest ih =>
      simp only [fanout, List.map_cons] at ih ⊢
      by_cases hk : kc.1 = f
      · have hnk : ¬ kc.1 = k := fun hh => h (hh.symm.trans hk)
        rw [if_pos hk]
        simp only [lookup]
        rw [if_neg hnk, if_neg hnk]
        exact ih
      · rw [if_neg hk]
        simp only [lookup]
        by_cases hk2 : kc.1 = k
        · rw [if_pos hk2, if_pos hk2]
          rfl
        · rw [if_neg hk2, if_neg hk2]
          exact ih

theorem keys_fanout (s : ChatState) (f m : String) :
    (fanout s f m).map Prod.fst = s.map Prod.fst := by
  induction s with
  | nil => rfl
  | cons kc rest ih =>
      simp only [fanout, List.map_cons] at ih ⊢
      by_cases hk : kc.1 = f
      · rw [if_pos hk]
        simp [ih]
      · rw [if_neg hk]
        simp [ih]

theorem countOthers_update (s : ChatState) (i : String) (c : Client) (f : String) :
    countOthers (update s i c) f = countOthers s f := by
  simp [countOthers, keys_update]

theorem countOthers_fanout (s : ChatState) (a m f : String) :
    countOthers (fanout s a m) f = countOthers s f := by
  simp [countOthers, keys_fanout]

theorem countOthers_pos {s : ChatState} {b : String} {c : Client} (a : String)
    (h : lookup s b = some c) (hne : b ≠ a) : countOthers s a ≠ 0 := by
  induction s with
  | nil => simp [lookup] at h
  | cons kc rest ih =>
      simp only [lookup] at h
      by_cases hk : kc.1 = b
      · have : kc.1 ≠ a := by rw [hk]; exact hne
        simp [countOthers, this]
      · rw [if_neg hk] at h
        by_cases hk2 : kc.1 = a
        · simpa [countOthers, hk2] using ih h
        · simp [countOthers, hk2]

theorem mem_keys_of_lookup {s : ChatState} {i : String} {c : Client}
    (h : lookup s i = some c) : i ∈ s.map Prod.fst := by
  induction s with
  | nil => simp [lookup] at h
  | cons kc rest ih =>
      simp only [lookup] at h
      by_cases hk : kc.1 = i
      · simp [← hk]
      · rw [if_neg hk] at h
        simp [ih h]

theorem lookup_eq_none_of_not_mem {s : ChatState} {i : String}
    (h : i ∉ s.map Prod.fst) : lookup s i = none := by
  induction s with
  | nil => rfl
  | cons kc rest ih =>
      simp only [List.map_cons, List.mem_cons] at h
      push_neg at h
      simp only [lookup]
      rw [if_neg (fun hh => h.1 hh.symm)]
      exact ih h.2

theorem lookup_filter_keep {s : ChatState} {i : String} {c : Client}
    (p : String × Client → Bool)
    (h : lookup s i = some c) (hp : p (i, c) = true) :
    lookup (s.filter p) i = some c := by
  induction s with
  | nil => simp [lookup] at h
  | cons kc rest ih =>
      obtain ⟨k0, c0⟩ := kc
      simp only [lookup] at h
      by_cases hk : k0 = i
      · rw [if_pos hk] at h
        injection h with h
        subst hk
        subst h
        rw [List.filter_cons, if_pos hp]
        simp [lookup]
      · rw [if_neg hk] at h
        rw [List.filter_cons]
        by_cases hpk : p (k0, c0) = true
        · rw [if_pos hpk]
          simp only [lookup]
          rw [if_neg hk]
          exact ih h
        · rw [if_neg hpk]
          exact ih h

theorem lookup_filter_none {s : ChatState} {i : String} {c : Client}
    (p : String × Client → Bool)
    (hnd : (s.map Prod.fst).Nodup)
    (h : lookup s i = some c) (hp : p (i, c) = false) :
    lookup (s.filter p) i = none := by
  induction s with
  | nil => rfl
  | cons kc rest ih =>
      obtain ⟨k0, c0⟩ := kc
      simp only [List.map_cons, List.nodup_cons] at hnd
      simp only [lookup] at h
      by_cases hk : k0 = i
      · rw [if_pos hk] at h
        injection h with h
        subst hk
        subst h
        rw [List.filter_cons, if_neg (by simp [hp])]
        apply lookup_eq_none_of_not_mem
        intro hmem
        apply hnd.1
        obtain ⟨x, hx, hfst⟩ := List.mem_map.mp hmem
        exact List.mem_map.mpr ⟨x, (List.mem_filter.mp hx).1, hfst⟩
      · rw [if_neg hk] at h
        rw [List.filter_cons]
        by_cases hpk : p (k0, c0) = true
        · rw [if_pos hpk]
          simp only [lookup]
          rw [if_neg hk]
          exact ih hnd.2 h
        · rw [if_neg hpk]
          exact ih hnd.2 h

/-! ## Delivery lemmas -/

theorem deliverTo_of_room {c : Client} (m : String)
    (h1 : c.closed = false) (h2 : c.ch.length < mailboxCapacity) :
    deliverTo c m = { c with ch := c.ch ++ [m] } := by
  simp [deliverTo, trySend, h1, h2]

theorem deliverTo_of_closed {c : Client} (m : String) (h : c.closed = true) :
    deliverTo c m = c := by
  simp [deliverTo, trySend, h]

theorem deliverTo_of_full {c : Client} (m : String)
    (h : ¬ c.ch.length < mailboxCapacity) : deliverTo c m = c := by
  by_cases hc : c.closed = true
  · simp [deliverTo, trySend, hc]
  · simp at hc
    simp [deliverTo, trySend, hc, h]

theorem deliverTo_lastSeen (c : Client) (m : String) :
    (deliverTo c m).lastSeen = c.lastSeen := by
  by_cases hc : c.closed = true
  · simp [deliverTo_of_closed m hc]
  · simp at hc
    by_cases h2 : c.ch.length < mailboxCapacity
    · simp [deliverTo_of_room m hc h2]
    · simp [deliverTo_of_full m h2]

/-! ## Operation-level lemmas -/

theorem sendMessage_ok_eq {s : ChatState} {now : ℚ} {frm msg : String} {c : Client}
    (hf : frm ≠ "") (hm : msg ≠ "")
    (hlen : ¬ maxMessageBytes < msg.utf8ByteSize)
    (hl : lookup s frm = some c)
    (ha : (limiterAllow c.rateLimiter now).1 = true)
    (hcnt : countOthers s frm ≠ 0) :
    SendMessage s now frm msg =
      (fanout (update s frm { c with rateLimiter := (limiterAllow c.rateLimiter now).2 })
         frm (frm ++ ": " ++ msg),
       .ok ⟨true, "Message broadcasted to clients"⟩) := by
  unfold SendMessage
  rw [if_neg (by simp [hf, hm]), if_neg hlen]
  unfold sendCore
  rw [hl]
  simp only [ha, if_true]
  rw [if_neg hcnt]

theorem sendMessage_rateLimited_eq {s : ChatState} {now : ℚ} {frm msg : String} {c : Client}
    (hf : frm ≠ "") (hm : msg ≠ "")
    (hlen : ¬ maxMessageBytes < msg.utf8ByteSize)
    (hl : lookup s frm = some c)
    (ha : (limiterAllow c.rateLimiter now).1 = false) :
    SendMessage s now frm msg = (s, .error .rateLimited) := by
  unfold SendMessage
  rw [if_neg (by simp [hf, hm]), if_neg hlen]
  unfold sendCore
  rw [hl]
  simp only [ha, Bool.false_eq_true, if_false]

theorem sendMessage_noReceivers_eq {s : ChatState} {now : ℚ} {frm msg : String} {c : Client}
    (hf : frm ≠ "") (hm : msg ≠ "")
    (hlen : ¬ maxMessageBytes < msg.utf8ByteSize)
    (hl : lookup s frm = some c)
    (ha : (limiterAllow c.rateLimiter now).1 = true)
    (hcnt : countOthers s frm = 0) :
    SendMessage s now frm msg =
      (fanout (update s frm { c with rateLimiter := (limiterAllow c.rateLimiter now).2 })
         frm (frm ++ ": " ++ msg),
       .error .noReceivers) := by
  unfold SendMessage
  rw [if_neg (by simp [hf, hm]), if_neg hlen]
  unfold sendCore
  rw [hl]
  simp only [ha, if_true]
  rw [if_pos hcnt]

/-- After a successful send the sender is still registered, with only its
rate limiter rewritten, and the registry keys are unchanged. -/
theorem sendMessage_ok_sender {s : ChatState} {now : ℚ} {frm msg : String} {c : Client}
    (hf : frm ≠ "") (hm : msg ≠ "")
    (hlen : ¬ maxMessageBytes < msg.utf8ByteSize)
    (hl : lookup s frm = some c)
    (ha : (limiterAllow c.rateLimiter now).1 = true)
    (hcnt : countOthers s frm ≠ 0) :
    lookup (SendMessage s now frm msg).1 frm
        = some { c with rateLimiter := (limiterAllow c.rateLimiter now).2 }
      ∧ countOthers (SendMessage s now frm msg).1 frm = countOthers s frm := by
  rw [sendMessage_ok_eq hf hm hlen hl ha hcnt]
  constructor
  · rw [lookup_fanout_self]
    exact lookup_update_self _ hl
  · rw [countOthers_fanout, countOthers_update]

/-- For a registered id, `GetMessage` rewrites exactly that client's entry:
`lastSeen` becomes `now` and at most the mailbox head is consumed. -/
theorem getMessage_state_eq {s : ChatState} {now : ℚ} {i : String} {c : Client}
    (hi : i ≠ "") (hl : lookup s i = some c) :
    (GetMessage s now i).1 = update s i { c with lastSeen := now, ch := c.ch.tail } := by
  unfold GetMessage
  rw [if_neg hi, hl]
  cases hch : c.ch with
  | nil => simp [hch]
  | cons m rest => simp [hch]

theorem getMessage_pop_eq {s : ChatState} {now : ℚ} {i : String} {c : Client}
    {m : String} {rest : List String}
    (hi : i ≠ "") (hl : lookup s i = some c) (hch : c.ch = m :: rest) :
    GetMessage s now i = (update s i { c with lastSeen := now, ch := rest }, .ok ⟨m⟩) := by
  unfold GetMessage
  rw [if_neg hi, hl]
  simp [hch]

theorem getMessage_noMessages_eq {s : ChatState} {now : ℚ} {i : String} {c : Client}
    (hi : i ≠ "") (hl : lookup s i = some c) (hch : c.ch = []) (hcl : c.closed = false) :
    GetMessage s now i = (update s i { c with lastSeen := now }, .error .noMessages) := by
  unfold GetMessage
  rw [if_neg hi, hl]
  simp [hch, hcl]

theorem getMessage_disconnected_eq {s : ChatState} {now : ℚ} {i : String} {c : Client}
    (hi : i ≠ "") (hl : lookup s i = some c) (hch : c.ch = []) (hcl : c.closed = true) :
    GetMessage s now i = (update s i { c with lastSeen := now }, .error .userDisconnected) := by
  unfold GetMessage
  rw [if_neg hi, hl]
  simp [hch, hcl]

theorem getMessage_lookup_other {s : ChatState} {now : ℚ} {i k : String}
    (h : k ≠ i) : lookup (GetMessage s now i).1 k = lookup s k := by
  by_cases hi : i = ""
  · unfold GetMessage
    rw [if_pos hi]
  · cases hl : lookup s i with
    | none =>
        unfold GetMessage
        rw [if_neg hi, hl]
    | some c =>
        rw [getMessage_state_eq hi hl]
        exact lookup_update_ne _ h

theorem getMessage_lookup_self {s : ChatState} {now : ℚ} {i : String} {c : Client}
    (hi : i ≠ "") (hl : lookup s i = some c) :
    lookup (GetMessage s now i).1 i = some { c with lastSeen := now, ch := c.ch.tail } := by
  rw [getMessage_state_eq hi hl]
  exact lookup_update_self _ hl

/-! ## Rate-limiter lemmas -/

/-- When the committed result of `Allow` is `true`, the new state holds the
refilled count minus the consumed token, stamped with the current time. -/
theorem limiterAllow_spec {l : Limiter} {now : ℚ}
    (ha : (limiterAllow l now).1 = true) :
    (limiterAllow l now).2
      = ⟨min limiterBurst (l.tokens + limiterRate * max 0 (now - l.last)) - 1, now⟩ := by
  unfold limiterAllow at ha ⊢
  by_cases h : 1 ≤ min limiterBurst (l.tokens + limiterRate * max 0 (now - l.last))
  · rw [if_pos h]
  · rw [if_neg h] at ha
    simp at ha

theorem limiterAllow_consume {tok l t : ℚ} (h1 : l ≤ t)
    (hcap : tok + (t - l) ≤ limiterBurst) (hge : 1 ≤ tok + (t - l)) :
    limiterAllow ⟨tok, l⟩ t = (true, ⟨tok + (t - l) - 1, t⟩) := by
  unfold limiterAllow limiterRate
  rw [max_eq_right (by linarith : (0:ℚ) ≤ t - l)]
  rw [one_mul, min_eq_right hcap, if_pos hge]

theorem limiterAllow_full {tok l t : ℚ} (h1 : l ≤ t)
    (hcap : limiterBurst ≤ tok + (t - l)) :
    limiterAllow ⟨tok, l⟩ t = (true, ⟨limiterBurst - 1, t⟩) := by
  unfold limiterAllow limiterRate
  rw [max_eq_right (by linarith : (0:ℚ) ≤ t - l)]
  rw [one_mul, min_eq_left hcap, if_pos (by norm_num [limiterBurst])]

theorem limiterAllow_deny {tok l t : ℚ} (h1 : l ≤ t)
    (hlt : tok + (t - l) < 1) :
    limiterAllow ⟨tok, l⟩ t = (false, ⟨tok, l⟩) := by
  unfold limiterAllow limiterRate
  rw [max_eq_right (by linarith : (0:ℚ) ≤ t - l), one_mul]
  rw [if_neg]
  intro hcon
  have := min_le_right limiterBurst (tok + (t - l))
  linarith

theorem limiterAllow_isAllowed {l : Limiter} {t : ℚ} (h1 : l.last ≤ t)
    (hge : 1 ≤ l.tokens + (t - l.last)) :
    (limiterAllow l t).1 = true := by
  unfold limiterAllow limiterRate
  rw [max_eq_right (by linarith : (0:ℚ) ≤ t - l.last), one_mul]
  rw [if_pos (le_min (by norm_num [limiterBurst]) hge)]

theorem countOthers_eq_zero {s : ChatState} {frm : String}
    (h : ∀ kc ∈ s, kc.1 = frm) : countOthers s frm = 0 := by
  unfold countOthers
  rw [List.length_eq_zero, List.filter_eq_nil_iff]
  intro k hk
  obtain ⟨kc, hkc, rfl⟩ := List.mem_map.mp hk
  simp [h kc hkc]

/-! ## Claims -/

/-- C4: `SendMessage` fails with `MissingField` when `from` or `message` is
empty; fails with `MessageTooLong` when the message is longer than 500
(the code measures `len(req.Message)`, i.e. bytes; 501 fails, exactly 500
passes — the boundary is inclusive); otherwise validation falls through to
the sender lookup (`sendCore`). -/
theorem c4_sendMessage_validation :
    (∀ (s : ChatState) (now : ℚ) (frm msg : String), frm = "" ∨ msg = "" →
        SendMessage s now frm msg = (s, .error .missingField))
  ∧ (∀ (s : ChatState) (now : ℚ) (frm msg : String), frm ≠ "" → msg ≠ "" →
        maxMessageBytes < msg.utf8ByteSize →
        SendMessage s now frm msg = (s, .error .messageTooLong))
  ∧ (∀ (s : ChatState) (now : ℚ) (frm msg : String), frm ≠ "" → msg ≠ "" →
        msg.utf8ByteSize ≤ maxMessageBytes →
        SendMessage s now frm msg = sendCore s now frm msg) := by
  refine ⟨?_, ?_, ?_⟩
  · intro s now frm msg h
    unfold SendMessage
    rw [if_pos h]
  · intro s now frm msg hf hm hlen
    unfold SendMessage
    rw [if_neg (by simp [hf, hm]), if_pos hlen]
  · intro s now frm msg hf hm hlen
    unfold SendMessage
    rw [if_neg (by simp [hf, hm]), if_neg (not_lt.mpr hlen)]

set_option maxRecDepth 8000

/-- Witness for C4: the empty-field, 501-byte and 500-byte boundary cases at
concrete inputs. -/
theorem c4_sendMessage_validation_witness :
    SendMessage [] 0 "" "hi" = ([], .error .missingField)
  ∧ SendMessage [] 0 "a" (String.mk (List.replicate 501 'x'))
      = ([], .error .messageTooLong)
  ∧ SendMessage [] 0 "a" (String.mk (List.replicate 500 'x'))
      = sendCore [] 0 "a" (String.mk (List.replicate 500 'x')) :=
  ⟨c4_sendMessage_validation.1 [] 0 "" "hi" (Or.inl rfl),
   c4_sendMessage_validation.2.1 [] 0 "a" (String.mk (List.replicate 501 'x'))
     (by decide) (by decide) (by decide),
   c4_sendMessage_validation.2.2 [] 0 "a" (String.mk (List.replicate 500 'x'))
     (by decide) (by decide) (by decide)⟩

/-- C10: the length limit is measured in bytes, not characters: a message of
251 copies of `é` (251 characters, 502 UTF-8 bytes) is rejected with
`MessageTooLong` even though its character count is at most 500, because the
code checks `len(req.Message) > 500` and Go `len` counts bytes. -/
theorem c10_length_limit_in_bytes :
    (String.mk (List.replicate 251 'é')).length ≤ 500
  ∧ 500 < (String.mk (List.replicate 251 'é')).utf8ByteSize
  ∧ ∀ (s : ChatState) (now : ℚ),
      SendMessage s now "a" (String.mk (List.replicate 251 'é'))
        = (s, .error .messageTooLong) := by
  refine ⟨by decide, by decide, ?_⟩
  intro s now
  unfold SendMessage
  rw [if_neg (by decide), if_pos (by decide)]

/-- C5 (code bug): the body of the fan-out delivery goroutine is
`select { case c.Ch <- message: default: }`.  When the target's mailbox
channel has been closed by a concurrent `Leave` or by the reaper, Go's send
on a closed channel proceeds by panicking, also inside `select` (the send
case counts as ready, so `default:` does not save it).  The claim's
"neither panics nor blocks" therefore fails on the code: the attempt never
blocks, but it panics instead of dropping the message. -/
theorem c5_trySend_closed_panics (c : Client) (m : String)
    (h : c.closed = true) : trySend c m = .panicked := by
  simp [trySend, h]

/-- Witness for C5: a concrete closed mailbox makes the delivery goroutine
panic. -/
theorem c5_trySend_closed_panics_witness :
    trySend ⟨"b", [], true, 0, ⟨limiterBurst, 0⟩⟩ "a: hi" = .panicked :=
  c5_trySend_closed_panics ⟨"b", [], true, 0, ⟨limiterBurst, 0⟩⟩ "a: hi" rfl

/-- C6: an otherwise-valid `SendMessage` from the only registered client
fails with `NoReceivers`, and the rate-limiter token consumed by the
check-and-consume before the fan-out loop is not rolled back: in the
resulting state the sender's limiter holds the refilled token count minus
one, stamped `now`. -/
theorem c6_noReceivers_consumes_token {s : ChatState} {now : ℚ}
    {frm msg : String} {c : Client} {s' : ChatState}
    {r : Except ChatError SendMessageResponse}
    (hf : frm ≠ "") (hm : msg ≠ "")
    (hlen : msg.utf8ByteSize ≤ maxMessageBytes)
    (hl : lookup s frm = some c)
    (honly : ∀ kc ∈ s, kc.1 = frm)
    (ha : (limiterAllow c.rateLimiter now).1 = true)
    (hsend : SendMessage s now frm msg = (s', r)) :
    r = .error .noReceivers
  ∧ lookup s' frm = some { c with rateLimiter := (limiterAllow c.rateLimiter now).2 }
  ∧ (limiterAllow c.rateLimiter now).2.tokens
      = min limiterBurst
          (c.rateLimiter.tokens + limiterRate * max 0 (now - c.rateLimiter.last)) - 1
  ∧ (limiterAllow c.rateLimiter now).2.last = now := by
  have hcnt : countOthers s frm = 0 := countOthers_eq_zero honly
  rw [sendMessage_noReceivers_eq hf hm (not_lt.mpr hlen) hl ha hcnt] at hsend
  injection hsend with h1 h2
  subst h1
  refine ⟨h2.symm, ?_, ?_, ?_⟩
  · rw [lookup_fanout_self]
    exact lookup_update_self _ hl
  · rw [limiterAllow_spec ha]
  · rw [limiterAllow_spec ha]

/-- Witness for C6: one registered client "a" sending to nobody. -/
theorem c6_noReceivers_consumes_token_witness :
    let ca : Client := ⟨"a", [], false, 0, ⟨limiterBurst, 0⟩⟩
    (SendMessage [("a", ca)] 0 "a" "hi").2 = .error .noReceivers
  ∧ lookup (SendMessage [("a", ca)] 0 "a" "hi").1 "a"
      = some { ca with rateLimiter := (limiterAllow ca.rateLimiter 0).2 }
  ∧ (limiterAllow ca.rateLimiter 0).2.tokens
      = min limiterBurst
          (ca.rateLimiter.tokens + limiterRate * max 0 (0 - ca.rateLimiter.last)) - 1
  ∧ (limiterAllow ca.rateLimiter 0).2.last = 0 := by
  intro ca
  have h := @c6_noReceivers_consumes_token [("a", ca)] 0 "a" "hi" ca
    (SendMessage [("a", ca)] 0 "a" "hi").1
    (SendMessage [("a", ca)] 0 "a" "hi").2
    (by decide) (by decide) (by decide) (by rfl)
    (by intro kc hkc; simp at hkc; simp [hkc])
    (limiterAllow_isAllowed (by norm_num) (by norm_num [limiterBurst])) rfl
  exact h

/-- C1: for two distinct registered clients `a` and `b`, a successful
`SendMessage(a, t)` appends exactly the formatted string `a ++ ": " ++ t`
to `b`'s mailbox (when it has capacity), so that a subsequent
`GetMessage(b)` on a previously empty mailbox returns it; the sender's own
mailbox is not touched. -/
theorem c1_broadcast_delivery {s : ChatState} {now : ℚ} {a b t : String}
    {ca cb : Client} {s' : ChatState} {r : SendMessageResponse}
    (hab : a ≠ b) (hb : b ≠ "")
    (hla : lookup s a = some ca) (hlb : lookup s b = some cb)
    (hroom : cb.ch.length < mailboxCapacity) (hopen : cb.closed = false)
    (hsend : SendMessage s now a t = (s', .ok r)) :
    lookup s' b = some { cb with ch := cb.ch ++ [a ++ ": " ++ t] }
  ∧ (∃ ca', lookup s' a = some ca' ∧ ca'.ch = ca.ch)
  ∧ (cb.ch = [] → (GetMessage s' now b).2 = .ok ⟨a ++ ": " ++ t⟩) := by
  unfold SendMessage at hsend
  by_cases hv : a = "" ∨ t = ""
  · rw [if_pos hv] at hsend
    simp at hsend
  rw [if_neg hv] at hsend
  by_cases hlen : maxMessageBytes < t.utf8ByteSize
  · rw [if_pos hlen] at hsend
    simp at hsend
  rw [if_neg hlen] at hsend
  unfold sendCore at hsend
  rw [hla] at hsend
  by_cases ha : (limiterAllow ca.rateLimiter now).1 = true
  · simp only [ha, if_true] at hsend
    by_cases hcnt : countOthers s a = 0
    · rw [if_pos hcnt] at hsend
      simp at hsend
    · rw [if_neg hcnt] at hsend
      injection hsend with h1 h2
      subst h1
      have hbne : b ≠ a := fun hh => hab hh.symm
      have hlb' : lookup
          (fanout (update s a { ca with rateLimiter := (limiterAllow ca.rateLimiter now).2 })
            a (a ++ ": " ++ t)) b
          = some { cb with ch := cb.ch ++ [a ++ ": " ++ t] } := by
        rw [lookup_fanout_ne _ hbne, lookup_update_ne _ hbne, hlb]
        simp [deliverTo_of_room _ hopen hroom]
      refine ⟨hlb', ?_, ?_⟩
      · refine ⟨{ ca with rateLimiter := (limiterAllow ca.rateLimiter now).2 }, ?_, rfl⟩
        rw [lookup_fanout_self]
        exact lookup_update_self _ hla
      · intro hemp
        have hch : ({ cb with ch := cb.ch ++ [a ++ ": " ++ t] } : Client).ch
            = (a ++ ": " ++ t) :: [] := by
          rw [hemp]
          rfl
        rw [getMessage_pop_eq hb hlb' hch]
  · simp only [Bool.not_eq_true] at ha
    simp only [ha, Bool.false_eq_true, if_false] at hsend
    simp at hsend

/-- Witness for C1: after `Join("a")` and `Join("b")` at time 0,
`SendMessage("a","hi")` delivers `"a: hi"` to `b` only, and `GetMessage("b")`
returns it. -/
theorem c1_broadcast_delivery_witness :
    let ca : Client := ⟨"a", [], false, 0, ⟨limiterBurst, 0⟩⟩
    let cb : Client := ⟨"b", [], false, 0, ⟨limiterBurst, 0⟩⟩
    let s : ChatState := [("b", cb), ("a", ca)]
    lookup (SendMessage s 0 "a" "hi").1 "b"
      = some { cb with ch := ["a: hi"] }
  ∧ (∃ ca', lookup (SendMessage s 0 "a" "hi").1 "a" = some ca' ∧ ca'.ch = [])
  ∧ (GetMessage (SendMessage s 0 "a" "hi").1 0 "b").2 = .ok ⟨"a: hi"⟩ := by
  intro ca cb s
  have hsend : SendMessage s 0 "a" "hi"
      = ((SendMessage s 0 "a" "hi").1, .ok ⟨true, "Message broadcasted to clients"⟩) := by
    rw [@sendMessage_ok_eq s 0 "a" "hi" ca (by decide) (by decide) (by decide) (by rfl)
      (limiterAllow_isAllowed (by norm_num) (by norm_num [limiterBurst])) (by decide)]
  have h := @c1_broadcast_delivery s 0 "a" "b" "hi" ca cb
    (SendMessage s 0 "a" "hi").1 ⟨true, "Message broadcasted to clients"⟩
    (by decide) (by decide) (by rfl) (by rfl) (by decide) (by rfl) hsend
  exact ⟨h.1, h.2.1, h.2.2 rfl⟩

/-- C2: a broadcast to a recipient whose mailbox already holds 10 messages
is silently dropped — the send still returns success, the full recipient's
mailbox is unchanged (it never sees the message), and every other
recipient with spare capacity still receives the formatted message. -/
theorem c2_full_mailbox_drop {s : ChatState} {now : ℚ} {a msg b : String}
    {ca cb : Client} {s' : ChatState} {r : Except ChatError SendMessageResponse}
    (hba : b ≠ a)
    (hla : lookup s a = some ca) (hlb : lookup s b = some cb)
    (hfull : cb.ch.length = mailboxCapacity)
    (hf : a ≠ "") (hm : msg ≠ "") (hlen : msg.utf8ByteSize ≤ maxMessageBytes)
    (ha : (limiterAllow ca.rateLimiter now).1 = true)
    (hsend : SendMessage s now a msg = (s', r)) :
    r = .ok ⟨true, "Message broadcasted to clients"⟩
  ∧ lookup s' b = some cb
  ∧ ∀ d cd, d ≠ a → lookup s d = some cd → cd.closed = false →
      cd.ch.length < mailboxCapacity →
      lookup s' d = some { cd with ch := cd.ch ++ [a ++ ": " ++ msg] } := by
  have hcnt : countOthers s a ≠ 0 := countOthers_pos a hlb hba
  rw [sendMessage_ok_eq hf hm (not_lt.mpr hlen) hla ha hcnt] at hsend
  injection hsend with h1 h2
  subst h1
  refine ⟨h2.symm, ?_, ?_⟩
  · rw [lookup_fanout_ne _ hba, lookup_update_ne _ hba, hlb]
    simp [deliverTo_of_full _ (by rw [hfull]; exact lt_irrefl _)]
  · intro d cd hda hld hopen hroom
    rw [lookup_fanout_ne _ hda, lookup_update_ne _ hda, hld]
    simp [deliverTo_of_room _ hopen hroom]

/-- Witness for C2: `b`'s mailbox holds 10 messages, `c`'s is empty; a send
from `a` succeeds, leaves `b` untouched, and delivers to `c`. -/
theorem c2_full_mailbox_drop_witness :
    let full : List String := ["0", "1", "2", "3", "4", "5", "6", "7", "8", "9"]
    let ca : Client := ⟨"a", [], false, 0, ⟨limiterBurst, 0⟩⟩
    let cb : Client := ⟨"b", full, false, 0, ⟨limiterBurst, 0⟩⟩
    let cc : Client := ⟨"c", [], false, 0, ⟨limiterBurst, 0⟩⟩
    let s : ChatState := [("a", ca), ("b", cb), ("c", cc)]
    (SendMessage s 0 "a" "hi").2 = .ok ⟨true, "Message broadcasted to clients"⟩
  ∧ lookup (SendMessage s 0 "a" "hi").1 "b" = some cb
  ∧ lookup (SendMessage s 0 "a" "hi").1 "c" = some { cc with ch := ["a: hi"] } := by
  intro full ca cb cc s
  have h := @c2_full_mailbox_drop s 0 "a" "hi" "b" ca cb
    (SendMessage s 0 "a" "hi").1 (SendMessage s 0 "a" "hi").2
    (by decide) (by rfl) (by rfl) (by decide) (by decide) (by decide) (by decide)
    (limiterAllow_isAllowed (by norm_num) (by norm_num [limiterBurst])) rfl
  refine ⟨h.1, h.2.1, ?_⟩
  have hc := h.2.2 "c" cc (by decide) (by rfl) rfl (by decide)
  exact hc

/-- C3: the receive wait of `GetMessage` resolves to exactly one of three
outcomes: a buffered message is returned at once (also on a closed channel
that still holds messages); an empty closed mailbox — including one closed
while the call was already blocked waiting — yields `Disconnected`; and the
10-second timer firing with no message and no closure yields `NoMessages`.
For every registered id the sequential `GetMessage` result is exactly the
resolution of this wait against the client's mailbox. -/
theorem c3_getMessage_trichotomy :
    (∀ (closed timedOut : Bool) (m : String) (rest : List String),
        selectReceive (m :: rest) closed timedOut = some (.ok ⟨m⟩))
  ∧ (∀ timedOut : Bool, selectReceive [] true timedOut = some (.error .userDisconnected))
  ∧ selectReceive [] false true = some (.error .noMessages)
  ∧ (∀ timedOut : Bool, selectReceive [] false timedOut = none → timedOut = false)
  ∧ (∀ (s : ChatState) (now : ℚ) (i : String) (c : Client), i ≠ "" →
        lookup s i = some c →
        (GetMessage s now i).2 = (selectReceive c.ch c.closed true).getD (.error .noMessages)) := by
  refine ⟨fun _ _ _ _ => rfl, fun _ => rfl, rfl, ?_, ?_⟩
  · intro timedOut h
    cases timedOut with
    | false => rfl
    | true => simp [selectReceive] at h
  · intro s now i c hi hl
    cases hch : c.ch with
    | nil =>
        cases hcl : c.closed with
        | false => rw [getMessage_noMessages_eq hi hl hch hcl]; simp [selectReceive]
        | true => rw [getMessage_disconnected_eq hi hl hch hcl]; simp [selectReceive]
    | cons m rest =>
        rw [getMessage_pop_eq hi hl hch]
        simp [selectReceive]

/-- Witness for C3: the three outcomes at concrete mailboxes, and
`GetMessage` against a registered client with one pending message. -/
theorem c3_getMessage_trichotomy_witness :
    selectReceive ["a: hi"] false false = some (.ok ⟨"a: hi"⟩)
  ∧ selectReceive [] true false = some (.error .userDisconnected)
  ∧ selectReceive [] false true = some (.error .noMessages)
  ∧ (GetMessage [("b", ⟨"b", ["a: hi"], false, 0, ⟨limiterBurst, 0⟩⟩)] 0 "b").2
      = (selectReceive ["a: hi"] false true).getD (.error .noMessages) :=
  ⟨c3_getMessage_trichotomy.1 false false "a: hi" [],
   c3_getMessage_trichotomy.2.1 false,
   c3_getMessage_trichotomy.2.2.1,
   c3_getMessage_trichotomy.2.2.2.2 [("b", ⟨"b", ["a: hi"], false, 0, ⟨limiterBurst, 0⟩⟩)]
     0 "b" ⟨"b", ["a: hi"], false, 0, ⟨limiterBurst, 0⟩⟩ (by decide) rfl⟩

/-- C9: for a registered id, every `GetMessage` call sets that client's
`lastSeen` to the current time — also when it ends in `NoMessages` — and
changes nothing else in the registry: the key set is unchanged, every other
client's entry is untouched, and in the `NoMessages` case the client's
entry changes only in its `lastSeen` field. -/
theorem c9_getMessage_refreshes_lastSeen {s : ChatState} {now : ℚ}
    {i : String} {c : Client}
    (hi : i ≠ "") (hl : lookup s i = some c) :
    (∃ c', lookup (GetMessage s now i).1 i = some c' ∧ c'.lastSeen = now)
  ∧ ((GetMessage s now i).1).map Prod.fst = s.map Prod.fst
  ∧ (∀ k, k ≠ i → lookup (GetMessage s now i).1 k = lookup s k)
  ∧ ((GetMessage s now i).2 = .error .noMessages →
      lookup (GetMessage s now i).1 i = some { c with lastSeen := now }) := by
  refine ⟨⟨_, getMessage_lookup_self hi hl, rfl⟩, ?_, ?_, ?_⟩
  · rw [getMessage_state_eq hi hl, keys_update]
  · intro k hk
    exact getMessage_lookup_other hk
  · intro hr
    have hch : c.ch = [] := by
      cases hch : c.ch with
      | nil => rfl
      | cons m rest =>
          rw [getMessage_pop_eq hi hl hch] at hr
          simp at hr
    have hcl : c.closed = false := by
      cases hcl : c.closed with
      | false => rfl
      | true =>
          rw [getMessage_disconnected_eq hi hl hch hcl] at hr
          simp at hr
    rw [getMessage_noMessages_eq hi hl hch hcl]
    exact lookup_update_self _ hl

/-- Witness for C9: a registered, silent client with an empty mailbox gets
`NoMessages` and only its `lastSeen` moves to the call time. -/
theorem c9_getMessage_refreshes_lastSeen_witness :
    let cb : Client := ⟨"b", [], false, 0, ⟨limiterBurst, 0⟩⟩
    let s : ChatState := [("b", cb)]
    (∃ c', lookup (GetMessage s 7 "b").1 "b" = some c' ∧ c'.lastSeen = 7)
  ∧ ((GetMessage s 7 "b").1).map Prod.fst = s.map Prod.fst
  ∧ lookup (GetMessage s 7 "b").1 "b" = some { cb with lastSeen := 7 } := by
  intro cb s
  have h := @c9_getMessage_refreshes_lastSeen s 7 "b" cb (by decide) (by rfl)
  exact ⟨h.1, h.2.1, h.2.2.2 (by rfl)⟩

/-! ## Token-bucket stepping lemmas for C7 -/

/-- One successful send when the refill does not reach the cap: the token
count drops to `tok + (t - l) - 1`. -/
theorem send_step {s : ChatState} {frm msg : String} {c : Client} {tok l t : ℚ}
    (hf : frm ≠ "") (hm : msg ≠ "") (hlen : ¬ maxMessageBytes < msg.utf8ByteSize)
    (hl : lookup s frm = some c) (hrl : c.rateLimiter = ⟨tok, l⟩)
    (hcnt : countOthers s frm ≠ 0)
    (hle : l ≤ t) (hcap : tok + (t - l) ≤ limiterBurst) (hge : 1 ≤ tok + (t - l)) :
    (SendMessage s t frm msg).2 = .ok ⟨true, "Message broadcasted to clients"⟩
  ∧ ∃ c', lookup (SendMessage s t frm msg).1 frm = some c'
        ∧ c'.rateLimiter = ⟨tok + (t - l) - 1, t⟩
        ∧ countOthers (SendMessage s t frm msg).1 frm ≠ 0 := by
  have hv : limiterAllow c.rateLimiter t = (true, ⟨tok + (t - l) - 1, t⟩) := by
    rw [hrl]
    exact limiterAllow_consume hle hcap hge
  have ha : (limiterAllow c.rateLimiter t).1 = true := by rw [hv]
  have hs := sendMessage_ok_eq hf hm hlen hl ha hcnt
  refine ⟨by rw [hs], { c with rateLimiter := (limiterAllow c.rateLimiter t).2 }, ?_, ?_, ?_⟩
  · rw [hs, lookup_fanout_self]
    exact lookup_update_self _ hl
  · rw [hv]
  · rw [hs, countOthers_fanout, countOthers_update]
    exact hcnt

/-- One successful send when the refill saturates at the burst: the token
count drops to `limiterBurst - 1`. -/
theorem send_step_sat {s : ChatState} {frm msg : String} {c : Client} {tok l t : ℚ}
    (hf : frm ≠ "") (hm : msg ≠ "") (hlen : ¬ maxMessageBytes < msg.utf8ByteSize)
    (hl : lookup s frm = some c) (hrl : c.rateLimiter = ⟨tok, l⟩)
    (hcnt : countOthers s frm ≠ 0)
    (hle : l ≤ t) (hcap : limiterBurst ≤ tok + (t - l)) :
    (SendMessage s t frm msg).2 = .ok ⟨true, "Message broadcasted to clients"⟩
  ∧ ∃ c', lookup (SendMessage s t frm msg).1 frm = some c'
        ∧ c'.rateLimiter = ⟨limiterBurst - 1, t⟩
        ∧ countOthers (SendMessage s t frm msg).1 frm ≠ 0 := by
  have hv : limiterAllow c.rateLimiter t = (true, ⟨limiterBurst - 1, t⟩) := by
    rw [hrl]
    exact limiterAllow_full hle hcap
  have ha : (limiterAllow c.rateLimiter t).1 = true := by rw [hv]
  have hs := sendMessage_ok_eq hf hm hlen hl ha hcnt
  refine ⟨by rw [hs], { c with rateLimiter := (limiterAllow c.rateLimiter t).2 }, ?_, ?_, ?_⟩
  · rw [hs, lookup_fanout_self]
    exact lookup_update_self _ hl
  · rw [hv]
  · rw [hs, countOthers_fanout, countOthers_update]
    exact hcnt

/-- A send denied by the limiter leaves the whole state untouched. -/
theorem send_step_deny {s : ChatState} {frm msg : String} {c : Client} {tok l t : ℚ}
    (hf : frm ≠ "") (hm : msg ≠ "") (hlen : ¬ maxMessageBytes < msg.utf8ByteSize)
    (hl : lookup s frm = some c) (hrl : c.rateLimiter = ⟨tok, l⟩)
    (hle : l ≤ t) (hlt : tok + (t - l) < 1) :
    SendMessage s t frm msg = (s, .error .rateLimited) := by
  have hv : limiterAllow c.rateLimiter t = (false, ⟨tok, l⟩) := by
    rw [hrl]
    exact limiterAllow_deny hle hlt
  exact sendMessage_rateLimited_eq hf hm hlen hl (by rw [hv])

/-- A send succeeds whenever at least one token is available after refill. -/
theorem send_step_ok_result {s : ChatState} {frm msg : String} {c : Client} {t : ℚ}
    (hf : frm ≠ "") (hm : msg ≠ "") (hlen : ¬ maxMessageBytes < msg.utf8ByteSize)
    (hl : lookup s frm = some c)
    (hle : c.rateLimiter.last ≤ t)
    (hge : 1 ≤ c.rateLimiter.tokens + (t - c.rateLimiter.last))
    (hcnt : countOthers s frm ≠ 0) :
    (SendMessage s t frm msg).2 = .ok ⟨true, "Message broadcasted to clients"⟩ := by
  rw [sendMessage_ok_eq hf hm hlen hl (limiterAllow_isAllowed hle hge) hcnt]

/-- C7: the per-client bucket has burst 5 and refill rate 1 token/second
(a `Join` at `t0` leaves the bucket full); of six otherwise-valid
`SendMessage` calls issued by the same sender within one second
(`t1 ≤ … ≤ t6 < t1 + 1`), the first five succeed and the sixth fails with
`RateLimited` — so at most 5 succeed — and a seventh call after enough
refill time (`t7 ≥ t1 + 1`) succeeds again.  The check itself is the pure
non-blocking `limiterAllow`. -/
theorem c7_rate_limit_burst {frm msg b : String} {ca cb : Client}
    {t0 t1 t2 t3 t4 t5 t6 t7 : ℚ}
    (hf : frm ≠ "") (hm : msg ≠ "") (hlen : msg.utf8ByteSize ≤ maxMessageBytes)
    (hbne : b ≠ frm)
    (hca : ca.rateLimiter = ⟨limiterBurst, t0⟩)
    (h01 : t0 ≤ t1) (h12 : t1 ≤ t2) (h23 : t2 ≤ t3) (h34 : t3 ≤ t4)
    (h45 : t4 ≤ t5) (h56 : t5 ≤ t6)
    (hwin : t6 < t1 + 1) (_h67 : t6 ≤ t7) (hrefill : t1 + 1 ≤ t7) :
    limiterBurst = 5 ∧ limiterRate = 1 ∧
    sendResults frm msg [(frm, ca), (b, cb)] [t1, t2, t3, t4, t5, t6, t7]
      = [.ok ⟨true, "Message broadcasted to clients"⟩,
         .ok ⟨true, "Message broadcasted to clients"⟩,
         .ok ⟨true, "Message broadcasted to clients"⟩,
         .ok ⟨true, "Message broadcasted to clients"⟩,
         .ok ⟨true, "Message broadcasted to clients"⟩,
         .error .rateLimited,
         .ok ⟨true, "Message broadcasted to clients"⟩] := by
  have hB : limiterBurst = (5:ℚ) := rfl
  have hlen' : ¬ maxMessageBytes < msg.utf8ByteSize := not_lt.mpr hlen
  have hl0 : lookup [(frm, ca), (b, cb)] frm = some ca := by simp [lookup]
  have hlb0 : lookup [(frm, ca), (b, cb)] b = some cb := by
    simp [lookup, Ne.symm hbne]
  have hcnt0 : countOthers [(frm, ca), (b, cb)] frm ≠ 0 :=
    countOthers_pos frm hlb0 hbne
  obtain ⟨hr1, c1, hl1, hrl1, hcnt1⟩ :=
    send_step_sat hf hm hlen' hl0 hca hcnt0 h01 (by linarith)
  obtain ⟨hr2, c2, hl2, hrl2, hcnt2⟩ :=
    send_step hf hm hlen' hl1 hrl1 hcnt1 h12 (by linarith) (by linarith [hB])
  obtain ⟨hr3, c3, hl3, hrl3, hcnt3⟩ :=
    send_step hf hm hlen' hl2 hrl2 hcnt2 h23 (by linarith) (by linarith [hB])
  obtain ⟨hr4, c4, hl4, hrl4, hcnt4⟩ :=
    send_step hf hm hlen' hl3 hrl3 hcnt3 h34 (by linarith) (by linarith [hB])
  obtain ⟨hr5, c5, hl5, hrl5, hcnt5⟩ :=
    send_step hf hm hlen' hl4 hrl4 hcnt4 h45 (by linarith) (by linarith [hB])
  have hr6 := send_step_deny hf hm hlen' hl5 hrl5 h56 (by linarith [hB])
  have hle7 : c5.rateLimiter.last ≤ t7 := by
    rw [hrl5]
    show t5 ≤ t7
    linarith
  have hge7 : 1 ≤ c5.rateLimiter.tokens + (t7 - c5.rateLimiter.last) := by
    rw [hrl5]
    show 1 ≤ limiterBurst - 1 + (t2 - t1) - 1 + (t3 - t2) - 1 + (t4 - t3) - 1
        + (t5 - t4) - 1 + (t7 - t5)
    linarith [hB]
  have hr7 := send_step_ok_result hf hm hlen' hl5 hle7 hge7 hcnt5
  refine ⟨rfl, rfl, ?_⟩
  simp only [sendResults, hr1, hr2, hr3, hr4, hr5, hr6, hr7]

/-- Witness for C7: sender "a", receiver "b", `Join` at time 0 and the six
calls all at time 0, the seventh at time 1. -/
theorem c7_rate_limit_burst_witness :
    let ca : Client := ⟨"a", [], false, 0, ⟨limiterBurst, 0⟩⟩
    let cb : Client := ⟨"b", [], false, 0, ⟨limiterBurst, 0⟩⟩
    limiterBurst = 5 ∧ limiterRate = 1 ∧
    sendResults "a" "hi" [("a", ca), ("b", cb)] [0, 0, 0, 0, 0, 0, 1]
      = [.ok ⟨true, "Message broadcasted to clients"⟩,
         .ok ⟨true, "Message broadcasted to clients"⟩,
         .ok ⟨true, "Message broadcasted to clients"⟩,
         .ok ⟨true, "Message broadcasted to clients"⟩,
         .ok ⟨true, "Message broadcasted to clients"⟩,
         .error .rateLimited,
         .ok ⟨true, "Message broadcasted to clients"⟩] := by
  intro ca cb
  exact @c7_rate_limit_burst "a" "hi" "b" ca cb 0 0 0 0 0 0 0 1
    (by decide) (by decide) (by decide) (by decide) rfl
    le_rfl le_rfl le_rfl le_rfl le_rfl le_rfl
    (by norm_num) (by norm_num) (by norm_num)

/-! ## Reaper lemmas for C8 -/

theorem chain_le_of_le {l t : ℚ} {xs : List ℚ}
    (h : List.Chain (· ≤ ·) t xs) (hle : l ≤ t) : List.Chain (· ≤ ·) l xs := by
  cases h with
  | nil => exact List.Chain.nil
  | cons hd tl => exact List.Chain.cons (le_trans hle hd) tl

/-- A client that, at every tick, either had a `GetMessage` poll within the
idle threshold or started recent enough, survives the whole event trace. -/
theorem retained_through_events {es : List (ℚ × ChatEvent)} {s : ChatState}
    {i : String} {c : Client} {l : ℚ}
    (hi : i ≠ "") (hl : lookup s i = some c) (hls : c.lastSeen = l)
    (hchain : List.Chain (· ≤ ·) l (es.map Prod.fst))
    (hcov : ∀ pre t post, es = pre ++ (t, ChatEvent.tick) :: post →
        t ≤ l + idleThreshold
        ∨ ∃ u, (u, ChatEvent.get i) ∈ pre ∧ t ≤ u + idleThreshold) :
    ∃ c', lookup (runEvents s es) i = some c' := by
  induction es generalizing s c l with
  | nil => exact ⟨c, hl⟩
  | cons e rest ih =>
      obtain ⟨t, ev⟩ := e
      simp only [List.map_cons] at hchain
      cases hchain with
      | cons hlt hchain' =>
      cases ev with
      | get j =>
          simp only [runEvents]
          by_cases hj : j = i
          · subst hj
            refine ih (getMessage_lookup_self hi hl) rfl hchain' ?_
            intro pre t' post hsplit
            have hc := hcov ((t, ChatEvent.get j) :: pre) t' post (by rw [hsplit]; rfl)
            rcases hc with hle' | ⟨u, hu, hut⟩
            · left
              linarith
            · rcases List.mem_cons.mp hu with heq | hu'
              · injection heq with h1 h2
                subst h1
                left
                exact hut
              · right
                exact ⟨u, hu', hut⟩
          · have hl' : lookup (GetMessage s t j).1 i = lookup s i :=
              getMessage_lookup_other (fun hh => hj hh.symm)
            refine ih (hl'.trans hl) hls (chain_le_of_le hchain' hlt) ?_
            intro pre t' post hsplit
            have hc := hcov ((t, ChatEvent.get j) :: pre) t' post (by rw [hsplit]; rfl)
            rcases hc with hle' | ⟨u, hu, hut⟩
            · left
              exact hle'
            · rcases List.mem_cons.mp hu with heq | hu'
              · injection heq with h1 h2
                injection h2 with h3
                exact absurd h3.symm hj
              · right
                exact ⟨u, hu', hut⟩
      | tick =>
          simp only [runEvents]
          have hfresh : t ≤ l + idleThreshold := by
            rcases hcov [] t rest rfl with hle' | ⟨u, hu, _⟩
            · exact hle'
            · simp at hu
          have hl' : lookup (reapTick s t) i = some c := by
            apply lookup_filter_keep _ hl
            simp only [decide_eq_true_eq, not_lt, hls]
            linarith
          refine ih hl' hls (chain_le_of_le hchain' hlt) ?_
          intro pre t' post hsplit
          have hc := hcov ((t, ChatEvent.tick) :: pre) t' post (by rw [hsplit]; rfl)
          rcases hc with hle' | ⟨u, hu, hut⟩
          · left
            exact hle'
          · rcases List.mem_cons.mp hu with heq | hu'
            · injection heq with h1 h2
              exact ChatEvent.noConfusion h2
            · right
              exact ⟨u, hu', hut⟩

/-- C8: a client that polls `GetMessage` within every 5-minute idle window
is never evicted by the reaper (over any trace of polls and reaper ticks);
a client idle for more than 5 minutes at a tick is removed by that sweep,
after which `GetMessage` against its id fails with `NotFound` and
`SendMessage` from it fails with `SenderNotFound`. -/
theorem c8_idle_reaper :
    (∀ (es : List (ℚ × ChatEvent)) (s : ChatState) (i : String) (c : Client) (l : ℚ),
        i ≠ "" → lookup s i = some c → c.lastSeen = l →
        List.Chain (· ≤ ·) l (es.map Prod.fst) →
        (∀ pre t post, es = pre ++ (t, ChatEvent.tick) :: post →
            t ≤ l + idleThreshold
            ∨ ∃ u, (u, ChatEvent.get i) ∈ pre ∧ t ≤ u + idleThreshold) →
        ∃ c', lookup (runEvents s es) i = some c')
  ∧ (∀ (s : ChatState) (t t' : ℚ) (i msg : String) (c : Client),
        (s.map Prod.fst).Nodup → i ≠ "" →
        msg ≠ "" → msg.utf8ByteSize ≤ maxMessageBytes →
        lookup s i = some c → c.lastSeen + idleThreshold < t →
        lookup (reapTick s t) i = none
        ∧ (GetMessage (reapTick s t) t' i).2 = .error .userNotFound
        ∧ (SendMessage (reapTick s t) t' i msg).2 = .error .senderNotFound) := by
  constructor
  · intro es s i c l hi hl hls hchain hcov
    exact retained_through_events hi hl hls hchain hcov
  · intro s t t' i msg c hnd hi hm hlen hl hidle
    have hnone : lookup (reapTick s t) i = none := by
      apply lookup_filter_none _ hnd hl
      simp only [decide_eq_true_eq, not_lt, decide_eq_false_iff_not]
      linarith
    refine ⟨hnone, ?_, ?_⟩
    · unfold GetMessage
      rw [if_neg hi, hnone]
    · unfold SendMessage
      rw [if_neg (by simp [hi, hm]), if_neg (not_lt.mpr hlen)]
      unfold sendCore
      rw [hnone]

/-- Witness for C8: a client last seen at time 200 survives a tick at 400;
a client last seen at 0 is evicted by a tick at 400 and then unreachable. -/
theorem c8_idle_reaper_witness :
    let cx : Client := ⟨"x", [], false, 200, ⟨limiterBurst, 200⟩⟩
    let cy : Client := ⟨"y", [], false, 0, ⟨limiterBurst, 0⟩⟩
    (∃ c', lookup (runEvents [("x", cx)] [(400, ChatEvent.tick)]) "x" = some c')
  ∧ lookup (reapTick [("y", cy)] 400) "y" = none
  ∧ (GetMessage (reapTick [("y", cy)] 400) 401 "y").2 = .error .userNotFound
  ∧ (SendMessage (reapTick [("y", cy)] 400) 401 "y" "hi").2 = .error .senderNotFound := by
  intro cx cy
  have hA := c8_idle_reaper.1 [(400, ChatEvent.tick)] [("x", cx)] "x" cx 200
    (by decide) rfl rfl
    (List.Chain.cons (by norm_num) List.Chain.nil)
    (by
      intro pre t post hsplit
      cases pre with
      | nil =>
          simp only [List.nil_append, List.cons.injEq] at hsplit
          injection hsplit.1 with h1 h2
          subst h1
          left
          norm_num [idleThreshold]
      | cons e pre' =>
          simp only [List.cons_append, List.cons.injEq] at hsplit
          exact absurd hsplit.2 (by simp))
  have hB := c8_idle_reaper.2 [("y", cy)] 400 401 "y" "hi" cy
    (by simp) (by decide) (by decide) (by decide) rfl
    (by norm_num [idleThreshold])
  exact ⟨hA, hB.1, hB.2.1, hB.2.2⟩

end Chatbox
